import Mathlib

/-!
Verification of the garagemq per-channel session core (channel.go) and the
virtual-host queue registry (vhost/vhost.go), shallowly embedded in Lean 4.

Stateful Go code is embedded as explicit state passing: every channel
operation takes a `ChannelState` and returns an updated state together with a
trace of observable events (calls into queues, consumers and the outbound
frame sink) and an optional AMQP error, mirroring the `*amqp.Error` return
values of the Go code.  Go maps are embedded as association lists; Go map
assignment/delete become `insertA`/key filtering.
-/

namespace GarageMQ

/-- AMQP reply code frame-error (501). -/
def FrameError : Nat := 501

/-- AMQP reply code precondition-failed (406). -/
def PreconditionFailed : Nat := 406

/-- AMQP reply code not-found (404). -/
def NotFound : Nat := 404

/-- AMQP reply code not-allowed (530). -/
def NotAllowed : Nat := 530

/-- AMQP reply code access-refused (403). -/
def AccessRefused : Nat := 403

/-- AMQP reply code no-consumers (313). -/
def NoConsumers : Nat := 313

/-- Protocol version string for AMQP 0-9-1 (amqp.Proto091). -/
def Proto091 : String := "amqp-0-9-1"

/-- Error scope: connection-level or channel-level (amqp.ErrorOnConnection /
amqp.ErrorOnChannel). -/
inductive ErrScope where
  | connection
  | channel
deriving Repr, DecidableEq

/-- An AMQP error value as produced by amqp.NewConnectionError /
amqp.NewChannelError (class-id/method-id fields are omitted; no claim
mentions them). -/
structure AmqpError where
  scope : ErrScope
  code : Nat
  text : String
deriving Repr, DecidableEq

/-- amqp.NewConnectionError. -/
def newConnectionError (code : Nat) (text : String) : AmqpError :=
  ⟨ErrScope.connection, code, text⟩

/-- amqp.NewChannelError. -/
def newChannelError (code : Nat) (text : String) : AmqpError :=
  ⟨ErrScope.channel, code, text⟩

/-- A single-quote character as a string, used to build error texts such as
the consumer-tag and queue-name messages verbatim. -/
def sq : String := String.singleton (Char.ofNat 39)

/-- Modelled from the spec: qos.AmqpQos (package qos is not in src/).  The
spec's QosState is "(prefetch-count, prefetch-bytes, current-count,
current-bytes)". -/
structure AmqpQos where
  prefetchCount : Nat
  prefetchSize : Nat
  currentCount : Nat
  currentSize : Nat
deriving Repr, DecidableEq

/-- Modelled from the spec: qos.AmqpQos.Update "atomically replaces limits"
(prefetch count and size); current usage is untouched. -/
def AmqpQos.update (q : AmqpQos) (pc ps : Nat) : AmqpQos :=
  { q with prefetchCount := pc, prefetchSize := ps }

/-- Modelled from the spec: qos.AmqpQos.Dec "releases" (count, bytes) from
current usage (Nat subtraction truncates at zero; the claims about exact
release carry explicit lower-bound hypotheses). -/
def AmqpQos.dec (q : AmqpQos) (count size : Nat) : AmqpQos :=
  { q with currentCount := q.currentCount - count,
           currentSize := q.currentSize - size }

/-- Modelled from the spec: amqp.ConfirmMeta — "delivery tag,
expected-confirms count, current-confirms count, can-confirm flag". -/
structure ConfirmMeta where
  deliveryTag : Nat
  expectedConfirms : Nat
  actualConfirms : Nat
  canConfirm : Bool
deriving Repr, DecidableEq

/-- Modelled from the spec: the content header as used by the channel core;
it "carries the declared body-size". -/
structure ContentHeader where
  bodySize : Nat
deriving Repr, DecidableEq

/-- Modelled from the spec: amqp.Message (package amqp is not in src/) —
"exchange name, routing key, mandatory flag, persistent flag, optional
header (…declared body size), accumulated body as an ordered sequence of
body fragments, running body size, confirm metadata".  Body fragments are
byte lists. -/
structure Message where
  exchange : String
  routingKey : String
  mandatory : Bool
  persistent : Bool
  header : Option ContentHeader
  body : List (List Nat)
  bodySize : Nat
  confirmMeta : ConfirmMeta
deriving Repr, DecidableEq

/-- Modelled from the spec: amqp.Message.Append — "Body frames extend the
current-message's body buffer, appending in arrival order", maintaining the
running body size. -/
def Message.append (m : Message) (payload : List Nat) : Message :=
  { m with body := m.body ++ [payload],
           bodySize := m.bodySize + payload.length }

/-- UnackedMessage from channel.go: consumer tag, message, source queue. -/
structure UnackedMessage where
  cTag : String
  msg : Message
  queue : String
deriving Repr, DecidableEq

/-- Which QoS accountant a consumer's list entry points at: the channel's
qos object, the connection's qos object, or the consumer's own value copy
(snapshot) taken from channel.consumerQos at registration. -/
inductive QosRef where
  | chanQ
  | connQ
  | snapQ
deriving Repr, DecidableEq

/-- Modelled from the spec together with addConsumer in channel.go: a
consumer.Consumer as the channel sees it — queue name, tag, noAck flag and
its QoS accountant list.  `snapshot` stores the value copy `cmrQos :=
*channel.consumerQos` that `snapQ` entries point at. -/
structure Consumer where
  queueName : String
  tag : String
  noAck : Bool
  qosRefs : List QosRef
  snapshot : AmqpQos
deriving Repr, DecidableEq

/-- The server metric counters the channel core touches (srvMetrics). -/
structure Metrics where
  publish : Int
  acknowledge : Int
  total : Int
  ready : Int
  unacked : Int
deriving Repr, DecidableEq

/-- Observable events emitted by channel operations: outbound basic.return
content sends, queue calls (Push/Requeue/AckMsg), consumer calls
(Consume/Stop). -/
inductive Event where
  | evBasicReturn (replyCode : Nat) (replyText : String)
      (exchangeName : String) (routingKey : String)
  | evPush (queueName : String)
  | evRequeue (queueName : String) (deliveryTag : Nat)
  | evAckMsg (queueName : String) (deliveryTag : Nat)
  | evConsume (cTag : String)
  | evConsumerStop (cTag : String)
deriving Repr, DecidableEq

/-- Channel status constants from channel.go. -/
def channelNew : Nat := 0

/-- Channel status channelOpen. -/
def channelOpen : Nat := 1

/-- Channel status channelClosing. -/
def channelClosing : Nat := 2

/-- Channel status channelClosed. -/
def channelClosed : Nat := 3

/-- The mutable state of a Channel (channel.go struct Channel), with the
connection-scope qos (channel.conn.qos) inlined as `connQos`.  Go maps
become association lists. -/
structure ChannelState where
  id : Nat
  active : Bool
  confirmMode : Bool
  status : Nat
  protoVersion : String
  currentMessage : Option Message
  consumers : List (String × Consumer)
  qos : AmqpQos
  consumerQos : AmqpQos
  connQos : AmqpQos
  ackStore : List (Nat × UnackedMessage)
  confirmQueue : List ConfirmMeta
  metrics : Metrics
deriving Repr, DecidableEq

/-- Association-list lookup (Go map read). -/
def lookupA {α β : Type} [DecidableEq α] : List (α × β) → α → Option β
  | [], _ => none
  | (k, v) :: rest, key => if k = key then some v else lookupA rest key

/-- Association-list insert/replace (Go map assignment). -/
def insertA {α β : Type} [DecidableEq α] : List (α × β) → α → β → List (α × β)
  | [], key, value => [(key, value)]
  | (k, v) :: rest, key, value =>
      if k = key then (key, value) :: rest else (k, v) :: insertA rest key value

/-- Association-list delete (Go map delete); removes every pair at the key. -/
def removeA {α β : Type} [DecidableEq α] (l : List (α × β)) (key : α) :
    List (α × β) :=
  l.filter (fun p => p.1 ≠ key)

/-- Keys of an association list. -/
def keysA {α β : Type} (l : List (α × β)) : List α := l.map Prod.fst

/-- handleContentHeader from channel.go.  The header frame's payload parse
outcome (amqp.ReadContentHeader) is passed in as `parsed`. -/
def handleContentHeader (st : ChannelState) (parsed : Option ContentHeader) :
    ChannelState × Option AmqpError :=
  match st.currentMessage with
  | none =>
      (st, some (newConnectionError FrameError "unexpected content header frame"))
  | some m =>
      match m.header with
      | some _ =>
          (st, some (newConnectionError FrameError
            "unexpected content header frame - header already exists"))
      | none =>
          match parsed with
          | none =>
              (st, some (newConnectionError FrameError
                "error on parsing content header frame"))
          | some h =>
              ({ st with currentMessage := some { m with header := some h } }, none)

/-- addConfirm from channel.go: no-op unless confirm mode is on and the
channel is not closed; otherwise appends to the confirm queue. -/
def addConfirm (st : ChannelState) (meta : ConfirmMeta) : ChannelState :=
  if st.confirmMode then
    if st.status = channelClosed then st
    else { st with confirmQueue := st.confirmQueue ++ [meta] }
  else st

/-- An exchange handle as the channel consumes it (spec 4.8): only
GetMatchedQueues is called; the routing internals are external, so the
matcher is carried as a function. -/
structure ExchangeObj where
  matchedQueues : Message → List String

/-- The per-queue body of the routing loop in handleContentBody: GetQueue +
Push, Total/Ready metric increments, and the conditional confirm. -/
def routeLoop (msg : Message) (confirmFlag : Bool) :
    List String → ChannelState → ChannelState × List Event
  | [], st => (st, [])
  | q :: rest, st =>
      let st1 := { st with metrics := { st.metrics with
                     total := st.metrics.total + 1,
                     ready := st.metrics.ready + 1 } }
      let st2 := if confirmFlag then addConfirm st1 msg.confirmMeta else st1
      let r := routeLoop msg confirmFlag rest st2
      (r.1, Event.evPush q :: r.2)

/-- handleContentBody from channel.go.  `lookupEx` is the virtual host's
GetExchange.  Returns the new state, the emitted events (basic.return
content sends and queue pushes) and the optional connection error. -/
def handleContentBody (lookupEx : String → Option ExchangeObj)
    (st : ChannelState) (payload : List Nat) :
    ChannelState × List Event × Option AmqpError :=
  match st.currentMessage with
  | none =>
      (st, [], some (newConnectionError FrameError "unexpected content body frame"))
  | some m =>
      match m.header with
      | none =>
          (st, [], some (newConnectionError FrameError
            "unexpected content body frame - no header yet"))
      | some hdr =>
          let msg := m.append payload
          let st1 := { st with currentMessage := some msg }
          if msg.bodySize < hdr.bodySize then (st1, [], none)
          else
            match lookupEx msg.exchange with
            | none =>
                (st1, [Event.evBasicReturn NoConsumers "No route"
                  msg.exchange msg.routingKey], none)
            | some ex =>
                let matched := ex.matchedQueues msg
                if matched.isEmpty then
                  if msg.mandatory then
                    (st1, [Event.evBasicReturn NoConsumers "No route"
                      msg.exchange msg.routingKey], none)
                  else
                    (addConfirm st1 msg.confirmMeta, [], none)
                else
                  let msg2 := { msg with confirmMeta :=
                    { msg.confirmMeta with expectedConfirms := matched.length } }
                  let st2 := { st1 with
                    currentMessage := some msg2,
                    metrics := { st1.metrics with
                      publish := st1.metrics.publish + 1 } }
                  let confirmFlag := msg2.confirmMeta.canConfirm && !msg2.persistent
                  let r := routeLoop msg2 confirmFlag matched st2
                  (r.1, r.2, none)

/-- One step of the Dec loop in decQosAndConsumerNext: `amqpQos.Dec(1,
size)` applied through one pointer of the consumer's Qos() slice.  A chanQ
or connQ pointer mutates the shared channel / connection accountant; a
snapQ pointer mutates the consumer's own value copy. -/
def applyDec (size : Nat) : ChannelState × Consumer → QosRef →
    ChannelState × Consumer
  | (st, c), QosRef.chanQ => ({ st with qos := st.qos.dec 1 size }, c)
  | (st, c), QosRef.connQ => ({ st with connQos := st.connQos.dec 1 size }, c)
  | (st, c), QosRef.snapQ => (st, { c with snapshot := c.snapshot.dec 1 size })

/-- decQosAndConsumerNext from channel.go: if the consumer tag is still in
the channel's consumer map, call cmr.Consume() and Dec(1, bodySize) on each
accountant in cmr.Qos(); otherwise Dec on the channel and connection qos. -/
def decQosAndConsumerNext (st : ChannelState) (u : UnackedMessage) :
    ChannelState × List Event :=
  match lookupA st.consumers u.cTag with
  | some cmr =>
      let sc := cmr.qosRefs.foldl (applyDec u.msg.bodySize) (st, cmr)
      ({ sc.1 with consumers := insertA sc.1.consumers u.cTag sc.2 },
       [Event.evConsume u.cTag])
  | none =>
      ({ st with qos := st.qos.dec 1 u.msg.bodySize,
                 connQos := st.connQos.dec 1 u.msg.bodySize }, [])

/-- ackMsg from channel.go: delete the entry from the ack store; if the
entry's queue still exists in the virtual host, call queue.AckMsg and move
the Acknowledge/Total/Unacked metrics; then decQosAndConsumerNext.
`queueExists` is the virtual host's GetQueue restricted to presence. -/
def ackMsg (queueExists : String → Bool) (st : ChannelState)
    (u : UnackedMessage) (deliveryTag : Nat) : ChannelState × List Event :=
  let st1 := { st with ackStore := removeA st.ackStore deliveryTag }
  let r2 : ChannelState × List Event :=
    if queueExists u.queue then
      ({ st1 with metrics := { st1.metrics with
            acknowledge := st1.metrics.acknowledge + 1,
            total := st1.metrics.total - 1,
            unacked := st1.metrics.unacked - 1 } },
       [Event.evAckMsg u.queue deliveryTag])
    else (st1, [])
  let r3 := decQosAndConsumerNext r2.1 u
  (r3.1, r2.2 ++ r3.2)

/-- The multiple=true loop of handleAck: range over a snapshot of the ack
store, acking every entry whose tag is selected by `deliveryTag = 0 ∨ tag ≤
deliveryTag`. -/
def ackLoop (queueExists : String → Bool) (deliveryTag : Nat) :
    List (Nat × UnackedMessage) → ChannelState → ChannelState × List Event
  | [], st => (st, [])
  | (tag, u) :: rest, st =>
      if deliveryTag = 0 ∨ tag ≤ deliveryTag then
        let r1 := ackMsg queueExists st u tag
        let r2 := ackLoop queueExists deliveryTag rest r1.1
        (r2.1, r1.2 ++ r2.2)
      else ackLoop queueExists deliveryTag rest st

/-- handleAck from channel.go. -/
def handleAck (queueExists : String → Bool) (st : ChannelState)
    (deliveryTag : Nat) (multiple : Bool) :
    ChannelState × List Event × Option AmqpError :=
  if multiple then
    let r := ackLoop queueExists deliveryTag st.ackStore st
    (r.1, r.2, none)
  else
    match lookupA st.ackStore deliveryTag with
    | none =>
        (st, [], some (newChannelError PreconditionFailed
          ("Delivery tag [" ++ toString deliveryTag ++ "] not found")))
    | some u =>
        let r := ackMsg queueExists st u deliveryTag
        (r.1, r.2, none)

/-- rejectMsg from channel.go: delete the entry; if the queue still exists,
Requeue (and Ready+1) or AckMsg depending on `requeue`, and Unacked-1; then
decQosAndConsumerNext. -/
def rejectMsg (queueExists : String → Bool) (st : ChannelState)
    (u : UnackedMessage) (deliveryTag : Nat) (requeue : Bool) :
    ChannelState × List Event :=
  let st1 := { st with ackStore := removeA st.ackStore deliveryTag }
  let r2 : ChannelState × List Event :=
    if queueExists u.queue then
      if requeue then
        ({ st1 with metrics := { st1.metrics with
              ready := st1.metrics.ready + 1,
              unacked := st1.metrics.unacked - 1 } },
         [Event.evRequeue u.queue deliveryTag])
      else
        ({ st1 with metrics := { st1.metrics with
              unacked := st1.metrics.unacked - 1 } },
         [Event.evAckMsg u.queue deliveryTag])
    else (st1, [])
  let r3 := decQosAndConsumerNext r2.1 u
  (r3.1, r2.2 ++ r3.2)

/-- The multiple=true loop of handleReject: walk the (descending-sorted)
tag list, rejecting each selected tag's current store entry
(channel.ackStore[tag]). -/
def rejectLoop (queueExists : String → Bool) (deliveryTag : Nat)
    (requeue : Bool) :
    List Nat → ChannelState → ChannelState × List Event
  | [], st => (st, [])
  | tag :: rest, st =>
      if deliveryTag = 0 ∨ tag ≤ deliveryTag then
        match lookupA st.ackStore tag with
        | some u =>
            let r1 := rejectMsg queueExists st u tag requeue
            let r2 := rejectLoop queueExists deliveryTag requeue rest r1.1
            (r2.1, r1.2 ++ r2.2)
        | none => rejectLoop queueExists deliveryTag requeue rest st
      else rejectLoop queueExists deliveryTag requeue rest st

/-- handleReject from channel.go: for multiple=true, the store's delivery
tags are collected and sorted in descending order (sort.Slice with
deliveryTags[i] > deliveryTags[j]) before the per-tag loop. -/
def handleReject (queueExists : String → Bool) (st : ChannelState)
    (deliveryTag : Nat) (multiple : Bool) (requeue : Bool) :
    ChannelState × List Event × Option AmqpError :=
  if multiple then
    let tags := List.insertionSort (fun a b => b ≤ a) (keysA st.ackStore)
    let r := rejectLoop queueExists deliveryTag requeue tags st
    (r.1, r.2, none)
  else
    match lookupA st.ackStore deliveryTag with
    | none =>
        (st, [], some (newChannelError PreconditionFailed
          ("Delivery tag [" ++ toString deliveryTag ++ "] not found")))
    | some u =>
        let r := rejectMsg queueExists st u deliveryTag requeue
        (r.1, r.2, none)

/-- close from channel.go: Stop and delete every consumer, then — only for
channels with id > 0 — requeue everything via handleReject(0, true, true),
then mark the channel Closed. -/
def close (queueExists : String → Bool) (st : ChannelState) :
    ChannelState × List Event :=
  let stopEvs := st.consumers.map (fun p => Event.evConsumerStop p.1)
  let st1 := { st with consumers := [] }
  let r2 : ChannelState × List Event :=
    if 0 < st.id then
      let r := handleReject queueExists st1 0 true true
      (r.1, r.2.1)
    else (st1, [])
  ({ r2.1 with status := channelClosed }, stopEvs ++ r2.2)

/-- updateQos from channel.go: under Proto091, global updates the
connection qos and non-global the channel qos; under later protocols,
global updates the channel qos and non-global the channel-held consumer-qos
template. -/
def updateQos (st : ChannelState) (prefetchCount prefetchSize : Nat)
    (global : Bool) : ChannelState :=
  if st.protoVersion = Proto091 then
    if global then
      { st with connQos := st.connQos.update prefetchCount prefetchSize }
    else
      { st with qos := st.qos.update prefetchCount prefetchSize }
  else
    if global then
      { st with qos := st.qos.update prefetchCount prefetchSize }
    else
      { st with consumerQos := st.consumerQos.update prefetchCount prefetchSize }

/-- A queue handle as addConsumer consumes it: IsActive, and the outcome of
queue.AddConsumer for this registration (queue internals are external to
the channel core, spec 4.8/5; an error is carried as its text). -/
structure QueueInfo where
  isActive : Bool
  addConsumerErr : Option String
deriving Repr, DecidableEq

/-- The basic.consume method fields addConsumer reads. -/
structure BasicConsume where
  queue : String
  consumerTag : String
  noAck : Bool
  exclusive : Bool
deriving Repr, DecidableEq

/-- getQueueWithError from channel.go: NotFound if the queue is absent or
inactive. -/
def getQueueWithError (lookupQu : String → Option QueueInfo)
    (queueName : String) : Except AmqpError QueueInfo :=
  match lookupQu queueName with
  | none =>
      Except.error (newChannelError NotFound
        ("queue " ++ sq ++ queueName ++ sq ++ " not found"))
  | some qu =>
      if qu.isActive then Except.ok qu
      else
        Except.error (newChannelError NotFound
          ("queue " ++ sq ++ queueName ++ sq ++ " not found"))

/-- addConsumer from channel.go: queue lookup, per-protocol QoS accountant
list (Proto091: pointers to channel and connection qos; later: pointer to
channel qos plus a value copy of the consumer-qos template), duplicate-tag
check, queue.AddConsumer, then registry insert. -/
def addConsumer (lookupQu : String → Option QueueInfo) (st : ChannelState)
    (method : BasicConsume) :
    ChannelState × Option Consumer × Option AmqpError :=
  match getQueueWithError lookupQu method.queue with
  | Except.error e => (st, none, some e)
  | Except.ok qu =>
      let cmr : Consumer :=
        if st.protoVersion = Proto091 then
          { queueName := method.queue, tag := method.consumerTag,
            noAck := method.noAck,
            qosRefs := [QosRef.chanQ, QosRef.connQ],
            snapshot := st.consumerQos }
        else
          { queueName := method.queue, tag := method.consumerTag,
            noAck := method.noAck,
            qosRefs := [QosRef.chanQ, QosRef.snapQ],
            snapshot := st.consumerQos }
      match lookupA st.consumers cmr.tag with
      | some _ =>
          (st, none, some (newChannelError NotAllowed
            ("Consumer with tag " ++ sq ++ cmr.tag ++ sq ++ " already exists")))
      | none =>
          match qu.addConsumerErr with
          | some msg =>
              (st, none, some (newChannelError AccessRefused msg))
          | none =>
              ({ st with consumers := insertA st.consumers cmr.tag cmr },
               some cmr, none)

/-- Resolve one of a consumer's accountant pointers to the qos value it
currently points at, given the channel state and the consumer record. -/
def resolveQos (st : ChannelState) (c : Consumer) : QosRef → AmqpQos
  | QosRef.chanQ => st.qos
  | QosRef.connQ => st.connQos
  | QosRef.snapQ => c.snapshot

/-- The delivery tags of queue calls (Requeue or AckMsg) in an event trace,
in emission order: the order in which unacked entries were processed. -/
def rejTags (evs : List Event) : List Nat :=
  evs.filterMap (fun e =>
    match e with
    | Event.evRequeue _ t => some t
    | Event.evAckMsg _ t => some t
    | _ => none)

/-- A zeroed qos accountant (qos.NewAmqpQos(0, 0)). -/
def q0 : AmqpQos := ⟨0, 0, 0, 0⟩

/-- Zero confirm metadata. -/
def meta0 : ConfirmMeta := ⟨0, 0, 0, false⟩

/-- Zeroed metric counters. -/
def metrics0 : Metrics := ⟨0, 0, 0, 0, 0⟩

/-- A freshly opened channel state with id 1 (NewChannel followed by
channel.open), used as the base of the concrete evaluation states. -/
def chSt0 : ChannelState :=
  { id := 1, active := true, confirmMode := false, status := channelOpen,
    protoVersion := Proto091, currentMessage := none, consumers := [],
    qos := q0, consumerQos := q0, connQos := q0, ackStore := [],
    confirmQueue := [], metrics := metrics0 }

/-- A publish in progress whose header (declared size 3) has arrived. -/
def msgWithHeader : Message :=
  { exchange := "", routingKey := "q1", mandatory := false,
    persistent := false, header := some ⟨3⟩, body := [], bodySize := 0,
    confirmMeta := meta0 }

/-- Concrete state: a current message whose header is already set. -/
def stWithHeader : ChannelState :=
  { chSt0 with currentMessage := some msgWithHeader }

/-- A publish in progress whose header has not arrived yet. -/
def msgNoHeader : Message := { msgWithHeader with header := none }

/-- Concrete state: a current message with no header yet. -/
def stNoHeader : ChannelState :=
  { chSt0 with currentMessage := some msgNoHeader }

/-- A channel state under a later (non-0-9-1) protocol revision. -/
def chStRabbit : ChannelState := { chSt0 with protoVersion := "amqp-rabbit" }

/-- A queue-lookup oracle exposing one active queue q1 that accepts any
consumer. -/
def qlQ1 : String → Option QueueInfo :=
  fun name =>
    if name = "q1" then some { isActive := true, addConsumerErr := none }
    else none

/-- A basic.consume of q1 with tag c1. -/
def bcC1 : BasicConsume :=
  { queue := "q1", consumerTag := "c1", noAck := false, exclusive := false }

/-- A basic.consume naming a queue that does not exist. -/
def bcNope : BasicConsume :=
  { queue := "nope", consumerTag := "c1", noAck := false, exclusive := false }

/-- A non-mandatory publish in progress to exchange "none", declared body
size 3, no body received yet. -/
def cexMsgC1 : Message :=
  { exchange := "none", routingKey := "", mandatory := false,
    persistent := false, header := some ⟨3⟩, body := [], bodySize := 0,
    confirmMeta := meta0 }

/-- Channel state holding the `cexMsgC1` publish. -/
def stC1 : ChannelState := { chSt0 with currentMessage := some cexMsgC1 }

/-- The same publish but mandatory and aimed at existing exchange ex1. -/
def msgMand : Message := { cexMsgC1 with mandatory := true, exchange := "ex1" }

/-- Channel state holding the `msgMand` publish. -/
def stMand : ChannelState := { chSt0 with currentMessage := some msgMand }

/-- An exchange that matches no queue. -/
def exEmpty : ExchangeObj := ⟨fun _ => []⟩

/-- Exchange lookup: ex1 exists and matches nothing. -/
def lookupExEmpty : String → Option ExchangeObj :=
  fun name => if name = "ex1" then some exEmpty else none

/-- An exchange that routes every message to q1. -/
def exQ1 : ExchangeObj := ⟨fun _ => ["q1"]⟩

/-- Exchange lookup: every name resolves to the q1 exchange. -/
def lookupExQ1 : String → Option ExchangeObj := fun _ => some exQ1

/-- An accountant with current usage (2 messages, 10 bytes). -/
def qosBusy : AmqpQos := ⟨0, 0, 2, 10⟩

/-- A registered consumer c1 on q1 with 0-9-1 accountants. -/
def cmrW : Consumer := ⟨"q1", "c1", false, [QosRef.chanQ, QosRef.connQ], q0⟩

/-- A channel state with consumer c1 registered and busy accountants. -/
def stQos : ChannelState :=
  { chSt0 with consumers := [("c1", cmrW)], qos := qosBusy,
               connQos := qosBusy }

/-- An unacked 4-byte message held by consumer c1. -/
def uW : UnackedMessage := ⟨"c1", { cexMsgC1 with bodySize := 4 }, "q1"⟩

/-- An unacked 4-byte message whose consumer is gone. -/
def uOrphan : UnackedMessage := ⟨"zz", { cexMsgC1 with bodySize := 4 }, "q1"⟩

/-- Queue-existence oracle: only q1 exists in the virtual host. -/
def qeQ1 : String → Bool := fun n => n == "q1"

/-- A channel state with three unacked messages on q1, tags 1..3. -/
def stAck : ChannelState :=
  { chSt0 with ackStore := [(1, uW), (2, uW), (3, uW)] }

/-- A channel 0 state holding one unacked entry. -/
def stCh0 : ChannelState := { chSt0 with id := 0, ackStore := [(7, uW)] }

/-- A channel (id 1) with consumer c1 and two unacked entries. -/
def stClose : ChannelState :=
  { chSt0 with consumers := [("c1", cmrW)], ackStore := [(1, uW), (2, uW)] }

end GarageMQ

namespace VHost

/-- A binding as built by binding.New(queue, exchange, routingKey, args,
topic): vhost.AppendQueue passes topic=false and empty args. -/
structure Binding where
  queue : String
  exchange : String
  routingKey : String
  topic : Bool
deriving Repr, DecidableEq

/-- An exchange as the vhost registry stores it: its name and its binding
list.  Modelled from the spec: exchange.AppendBinding appends the binding
to the exchange's binding list (package exchange is not in src/). -/
structure VExchange where
  name : String
  bindings : List Binding
deriving Repr, DecidableEq

/-- A queue record as the vhost registry needs it (interfaces.AmqpQueue:
GetName, IsDurable). -/
structure QueueRec where
  name : String
  durable : Bool
deriving Repr, DecidableEq

/-- The default exchange has the empty name (EX_DEFAULT_NAME). -/
def EX_DEFAULT_NAME : String := ""

/-- VirtualHost registry state (vhost.go): queue map and exchange map. -/
structure VirtualHost where
  queues : List (String × QueueRec)
  exchanges : List (String × VExchange)
deriving Repr, DecidableEq

/-- VirtualHost.GetQueue / getQueue: plain map read. -/
def getQueue (vh : VirtualHost) (name : String) : Option QueueRec :=
  GarageMQ.lookupA vh.queues name

/-- VirtualHost.GetDefaultExchange: read of the empty-name exchange. -/
def getDefaultExchange (vh : VirtualHost) : Option VExchange :=
  GarageMQ.lookupA vh.exchanges EX_DEFAULT_NAME

/-- VirtualHost.AppendQueue: store the queue under its name, then append a
binding (queue-name, default-exchange, routing-key = queue-name) on the
default exchange.  The Go code dereferences GetDefaultExchange
unconditionally; the absent-default case (which would crash in Go) leaves
the exchange map unchanged here and is excluded by hypothesis in the
theorems. -/
def appendQueue (vh : VirtualHost) (qu : QueueRec) : VirtualHost :=
  let vh1 := { vh with queues := GarageMQ.insertA vh.queues qu.name qu }
  match getDefaultExchange vh1 with
  | none => vh1
  | some ex =>
      let bind : Binding :=
        { queue := qu.name, exchange := EX_DEFAULT_NAME,
          routingKey := qu.name, topic := false }
      let ex2 : VExchange := { ex with bindings := ex.bindings ++ [bind] }
      { vh1 with exchanges := GarageMQ.insertA vh1.exchanges EX_DEFAULT_NAME ex2 }

/-- The binding AppendQueue creates for a queue named `qname`: default
exchange, routing key equal to the queue name. -/
def bindOf (qname : String) : Binding :=
  { queue := qname, exchange := EX_DEFAULT_NAME, routingKey := qname,
    topic := false }

/-- An exchange after AppendQueue has appended `bindOf qname`. -/
def exWithBind (ex : VExchange) (qname : String) : VExchange :=
  { ex with bindings := ex.bindings ++ [bindOf qname] }

/-- A virtual host holding only the (empty) default exchange. -/
def vh0 : VirtualHost :=
  { queues := [], exchanges := [("", { name := "", bindings := [] })] }

/-- A concrete queue record named q1. -/
def quQ1 : QueueRec := { name := "q1", durable := false }

end VHost

namespace GarageMQ

theorem lookupA_mem {α β : Type} [DecidableEq α] {l : List (α × β)} {k : α}
    {v : β} (h : lookupA l k = some v) : (k, v) ∈ l := by
  induction l with
  | nil => simp [lookupA] at h
  | cons p rest ih =>
      obtain ⟨a, b⟩ := p
      by_cases ha : a = k
      · subst ha
        simp [lookupA] at h
        simp [h]
      · simp [lookupA, ha] at h
        exact List.mem_cons_of_mem _ (ih h)

theorem lookupA_eq_none {α β : Type} [DecidableEq α] {l : List (α × β)}
    {k : α} : lookupA l k = none ↔ k ∉ keysA l := by
  induction l with
  | nil => simp [lookupA, keysA]
  | cons p rest ih =>
      obtain ⟨a, b⟩ := p
      by_cases ha : a = k
      · subst ha
        simp [lookupA, keysA]
      · simp [lookupA, ha, keysA] at ih ⊢
        exact Iff.intro (fun h => ⟨fun hk => ha hk.symm, ih.1 h⟩)
          (fun h => ih.2 h.2)

theorem lookupA_isSome_of_mem_keys {α β : Type} [DecidableEq α]
    {l : List (α × β)} {k : α} (h : k ∈ keysA l) :
    ∃ v, lookupA l k = some v := by
  cases hl : lookupA l k with
  | none => exact absurd h (lookupA_eq_none.mp hl)
  | some v => exact ⟨v, rfl⟩

theorem lookupA_of_mem_nodup {α β : Type} [DecidableEq α] {l : List (α × β)}
    {k : α} {v : β} (hnd : (keysA l).Nodup) (h : (k, v) ∈ l) :
    lookupA l k = some v := by
  induction l with
  | nil => simp at h
  | cons p rest ih =>
      obtain ⟨a, b⟩ := p
      have hcons : (a :: keysA rest).Nodup := hnd
      have hmemk : a ∉ keysA rest := (List.nodup_cons.mp hcons).1
      have hndr : (keysA rest).Nodup := (List.nodup_cons.mp hcons).2
      rcases List.mem_cons.mp h with heq | hmem
      · cases heq
        simp [lookupA]
      · have hak : a ≠ k := by
          intro hak
          subst hak
          exact hmemk (List.mem_map_of_mem Prod.fst hmem)
        simp [lookupA, hak]
        exact ih hndr hmem

theorem lookupA_insertA_self {α β : Type} [DecidableEq α]
    (l : List (α × β)) (k : α) (v : β) :
    lookupA (insertA l k v) k = some v := by
  induction l with
  | nil => simp [insertA, lookupA]
  | cons p rest ih =>
      obtain ⟨a, b⟩ := p
      by_cases ha : a = k
      · subst ha
        simp [insertA, lookupA]
      · simp [insertA, ha, lookupA, ih]

theorem keysA_filter_sublist {α β : Type} (l : List (α × β))
    (p : α × β → Bool) : (keysA (l.filter p)).Sublist (keysA l) :=
  List.Sublist.map Prod.fst (List.filter_sublist l)

theorem mem_keysA_filter_ne {α β : Type} [DecidableEq α]
    {l : List (α × β)} {k t : α} (hk : k ∈ keysA l) (hne : k ≠ t) :
    k ∈ keysA (l.filter (fun p => p.1 ≠ t)) := by
  rcases List.mem_map.mp hk with ⟨p, hp, hpk⟩
  exact List.mem_map.mpr ⟨p, List.mem_filter.mpr ⟨hp, by simp [hpk, hne]⟩, hpk⟩

/-- C2: every out-of-order content frame yields a connection-level
FrameError: a header with no current message, a second header, a body with
no current message, and a body before the header (the latter with text
"unexpected content body frame - no header yet"). -/
theorem contentFrame_order_errors (st : ChannelState)
    (parsed : Option ContentHeader) (payload : List Nat)
    (lookupEx : String → Option ExchangeObj) :
    (st.currentMessage = none →
       (handleContentHeader st parsed).2 =
         some (newConnectionError FrameError "unexpected content header frame") ∧
       (handleContentBody lookupEx st payload).2.2 =
         some (newConnectionError FrameError "unexpected content body frame")) ∧
    (∀ m h, st.currentMessage = some m → m.header = some h →
       (handleContentHeader st parsed).2 =
         some (newConnectionError FrameError
           "unexpected content header frame - header already exists")) ∧
    (∀ m, st.currentMessage = some m → m.header = none →
       (handleContentBody lookupEx st payload).2.2 =
         some (newConnectionError FrameError
           "unexpected content body frame - no header yet")) := by
  refine ⟨fun hnone => ?_, fun m h hm hh => ?_, fun m hm hh => ?_⟩
  · simp [handleContentHeader, handleContentBody, hnone]
  · simp [handleContentHeader, hm, hh]
  · simp [handleContentBody, hm, hh]

/-- C2 witness: the four FrameError cases evaluated on concrete states. -/
theorem contentFrame_order_errors_witness :
    (handleContentHeader chSt0 none).2 =
      some (newConnectionError FrameError "unexpected content header frame") ∧
    (handleContentBody (fun _ => none) chSt0 []).2.2 =
      some (newConnectionError FrameError "unexpected content body frame") ∧
    (handleContentHeader stWithHeader none).2 =
      some (newConnectionError FrameError
        "unexpected content header frame - header already exists") ∧
    (handleContentBody (fun _ => none) stNoHeader []).2.2 =
      some (newConnectionError FrameError
        "unexpected content body frame - no header yet") := by
  refine ⟨((contentFrame_order_errors chSt0 none [] (fun _ => none)).1 rfl).1,
    ((contentFrame_order_errors chSt0 none [] (fun _ => none)).1 rfl).2,
    (contentFrame_order_errors stWithHeader none [] (fun _ => none)).2.1
      msgWithHeader ⟨3⟩ rfl rfl,
    (contentFrame_order_errors stNoHeader none [] (fun _ => none)).2.2
      msgNoHeader rfl rfl⟩

theorem addConsumer_success (lookupQu : String → Option QueueInfo)
    (st : ChannelState) (method : BasicConsume) (cmr : Consumer)
    (h : (addConsumer lookupQu st method).2.1 = some cmr) :
    cmr.tag = method.consumerTag ∧ cmr.snapshot = st.consumerQos ∧
    cmr.qosRefs = (if st.protoVersion = Proto091
      then [QosRef.chanQ, QosRef.connQ]
      else [QosRef.chanQ, QosRef.snapQ]) ∧
    (addConsumer lookupQu st method).1 =
      { st with consumers := insertA st.consumers method.consumerTag cmr } ∧
    (addConsumer lookupQu st method).2.2 = none := by
  by_cases hp : st.protoVersion = Proto091 <;>
  · cases hq : getQueueWithError lookupQu method.queue with
    | error e => simp [addConsumer, hq] at h
    | ok qu =>
        cases hl : lookupA st.consumers method.consumerTag with
        | some c => simp [addConsumer, hq, hp, hl] at h
        | none =>
            cases he : qu.addConsumerErr with
            | some msg => simp [addConsumer, hq, hp, hl, he] at h
            | none =>
                simp only [addConsumer, hq, hp, hl, he, if_pos, if_neg,
                  ite_true, ite_false, reduceIte] at h ⊢
                cases h
                simp

/-- C7: QoS scope selection per protocol version.  Under 0-9-1, updateQos
with global=true updates the connection qos and with global=false the
channel qos, and a freshly registered consumer's accountant list is
{channel qos, connection qos}.  Under later protocols, global=true updates
the channel qos and global=false the channel-held consumer template, a
fresh consumer gets {channel qos, snapshot}, where the snapshot is a value
copy of the template taken at registration, so a later template update
leaves the registered consumer's snapshot unchanged. -/
theorem qos_scope_selection (st : ChannelState) (pc ps : Nat)
    (lookupQu : String → Option QueueInfo) (method : BasicConsume) :
    (st.protoVersion = Proto091 →
       updateQos st pc ps true = { st with connQos := st.connQos.update pc ps } ∧
       updateQos st pc ps false = { st with qos := st.qos.update pc ps }) ∧
    (st.protoVersion ≠ Proto091 →
       updateQos st pc ps true = { st with qos := st.qos.update pc ps } ∧
       updateQos st pc ps false =
         { st with consumerQos := st.consumerQos.update pc ps }) ∧
    (∀ cmr, (addConsumer lookupQu st method).2.1 = some cmr →
       (st.protoVersion = Proto091 →
          cmr.qosRefs = [QosRef.chanQ, QosRef.connQ]) ∧
       (st.protoVersion ≠ Proto091 →
          cmr.qosRefs = [QosRef.chanQ, QosRef.snapQ] ∧
          cmr.snapshot = st.consumerQos)) ∧
    (st.protoVersion ≠ Proto091 →
       ∀ cmr, (addConsumer lookupQu st method).2.1 = some cmr →
         lookupA (updateQos (addConsumer lookupQu st method).1 pc ps
             false).consumers cmr.tag = some cmr ∧
         cmr.snapshot = st.consumerQos) := by
  refine ⟨fun hp => ?_, fun hp => ?_, fun cmr h => ?_, fun hp cmr h => ?_⟩
  · simp [updateQos, hp]
  · simp [updateQos, hp]
  · have hs := addConsumer_success lookupQu st method cmr h
    constructor
    · intro hp
      rw [hs.2.2.1, if_pos hp]
    · intro hp
      exact ⟨by rw [hs.2.2.1, if_neg hp], hs.2.1⟩
  · have hs := addConsumer_success lookupQu st method cmr h
    have hcons : (updateQos (addConsumer lookupQu st method).1 pc ps
        false).consumers = (addConsumer lookupQu st method).1.consumers := by
      by_cases hp2 : (addConsumer lookupQu st method).1.protoVersion = Proto091 <;>
        simp [updateQos, hp2]
    rw [hcons, hs.2.2.2.1]
    refine ⟨?_, hs.2.1⟩
    rw [hs.1]
    exact lookupA_insertA_self st.consumers method.consumerTag cmr

/-- C8: addConsumer error cases.  Channel-level NotFound when the queue is
absent or inactive; channel-level NotAllowed "Consumer with tag 'T' already
exists" on a duplicate tag, leaving the registry unchanged; channel-level
AccessRefused carrying the queue's reason when queue.AddConsumer fails;
otherwise the consumer is inserted into the registry under its tag. -/
theorem addConsumer_error_cases (lookupQu : String → Option QueueInfo)
    (st : ChannelState) (method : BasicConsume) :
    ((lookupQu method.queue = none ∨
        ∃ qu, lookupQu method.queue = some qu ∧ qu.isActive = false) →
       addConsumer lookupQu st method = (st, none, some (newChannelError
         NotFound ("queue " ++ sq ++ method.queue ++ sq ++ " not found")))) ∧
    (∀ qu, lookupQu method.queue = some qu → qu.isActive = true →
       (∀ c, lookupA st.consumers method.consumerTag = some c →
          addConsumer lookupQu st method = (st, none, some (newChannelError
            NotAllowed ("Consumer with tag " ++ sq ++ method.consumerTag ++
              sq ++ " already exists")))) ∧
       (lookupA st.consumers method.consumerTag = none →
          (∀ msg, qu.addConsumerErr = some msg →
             addConsumer lookupQu st method =
               (st, none, some (newChannelError AccessRefused msg))) ∧
          (qu.addConsumerErr = none →
             ∃ cmr, (addConsumer lookupQu st method).2.1 = some cmr ∧
               cmr.tag = method.consumerTag ∧
               (addConsumer lookupQu st method).1.consumers =
                 insertA st.consumers method.consumerTag cmr ∧
               (addConsumer lookupQu st method).2.2 = none))) := by
  constructor
  · intro hq
    have hge : getQueueWithError lookupQu method.queue =
        Except.error (newChannelError NotFound
          ("queue " ++ sq ++ method.queue ++ sq ++ " not found")) := by
      rcases hq with hn | ⟨qu, hs, hi⟩
      · simp [getQueueWithError, hn]
      · simp [getQueueWithError, hs, hi]
    simp [addConsumer, hge]
  · intro qu hs hi
    have hge : getQueueWithError lookupQu method.queue = Except.ok qu := by
      simp [getQueueWithError, hs, hi]
    constructor
    · intro c hc
      by_cases hp : st.protoVersion = Proto091 <;>
        simp [addConsumer, hge, hp, hc]
    · intro hl
      constructor
      · intro msg he
        by_cases hp : st.protoVersion = Proto091 <;>
          simp [addConsumer, hge, hp, hl, he]
      · intro he
        by_cases hp : st.protoVersion = Proto091
        · refine ⟨Consumer.mk method.queue method.consumerTag method.noAck
            [QosRef.chanQ, QosRef.connQ] st.consumerQos, ?_, rfl, ?_, ?_⟩ <;>
            simp [addConsumer, hge, hp, hl, he]
        · refine ⟨Consumer.mk method.queue method.consumerTag method.noAck
            [QosRef.chanQ, QosRef.snapQ] st.consumerQos, ?_, rfl, ?_, ?_⟩ <;>
            simp [addConsumer, hge, hp, hl, he]

/-- C7 witness: on a non-0-9-1 channel, global=true moves the channel qos,
and after registering consumer c1 a template update (global=false) leaves
the registered consumer's snapshot at the old template value q0. -/
theorem qos_scope_selection_witness :
    updateQos chStRabbit 5 10 true =
      { chStRabbit with qos := chStRabbit.qos.update 5 10 } ∧
    lookupA (updateQos (addConsumer qlQ1 chStRabbit bcC1).1 5 10
        false).consumers "c1" =
      some (Consumer.mk "q1" "c1" false [QosRef.chanQ, QosRef.snapQ] q0) := by
  have h := qos_scope_selection chStRabbit 5 10 qlQ1 bcC1
  have hp : chStRabbit.protoVersion ≠ Proto091 := by decide
  refine ⟨(h.2.1 hp).1, ?_⟩
  have h4 := h.2.2.2 hp
    (Consumer.mk "q1" "c1" false [QosRef.chanQ, QosRef.snapQ] q0) rfl
  exact h4.1

/-- C8 witness: consuming from an unknown queue fails NotFound with the
exact text, and a clean registration inserts the consumer under tag c1. -/
theorem addConsumer_error_cases_witness :
    addConsumer qlQ1 chSt0 bcNope = (chSt0, none, some (newChannelError
      NotFound ("queue " ++ sq ++ "nope" ++ sq ++ " not found"))) ∧
    (∃ cmr, (addConsumer qlQ1 chSt0 bcC1).2.1 = some cmr ∧
       cmr.tag = "c1" ∧
       (addConsumer qlQ1 chSt0 bcC1).1.consumers =
         insertA chSt0.consumers "c1" cmr ∧
       (addConsumer qlQ1 chSt0 bcC1).2.2 = none) := by
  refine ⟨(addConsumer_error_cases qlQ1 chSt0 bcNope).1 (Or.inl rfl), ?_⟩
  exact (((addConsumer_error_cases qlQ1 chSt0 bcC1).2
    (QueueInfo.mk true none) rfl rfl).2 rfl).2 rfl

theorem addConfirm_currentMessage (st : ChannelState) (meta : ConfirmMeta) :
    (addConfirm st meta).currentMessage = st.currentMessage := by
  unfold addConfirm
  split <;> [skip; rfl]
  split <;> rfl

theorem addConfirm_metrics (st : ChannelState) (meta : ConfirmMeta) :
    (addConfirm st meta).metrics = st.metrics := by
  unfold addConfirm
  split <;> [skip; rfl]
  split <;> rfl

theorem routeLoop_spec (msg : Message) (cf : Bool) (qs : List String)
    (st : ChannelState) :
    (routeLoop msg cf qs st).2 = qs.map Event.evPush ∧
    (routeLoop msg cf qs st).1.currentMessage = st.currentMessage ∧
    (routeLoop msg cf qs st).1.metrics.total =
      st.metrics.total + (qs.length : Int) ∧
    (routeLoop msg cf qs st).1.metrics.ready =
      st.metrics.ready + (qs.length : Int) := by
  induction qs generalizing st with
  | nil => simp [routeLoop]
  | cons q rest ih =>
      have hcm : ∀ s : ChannelState,
          (if cf then addConfirm s msg.confirmMeta else s).currentMessage =
            s.currentMessage := by
        intro s
        cases cf <;> simp [addConfirm_currentMessage]
      have hmt : ∀ s : ChannelState,
          (if cf then addConfirm s msg.confirmMeta else s).metrics =
            s.metrics := by
        intro s
        cases cf <;> simp [addConfirm_metrics]
      simp only [routeLoop, List.map_cons, List.length_cons]
      refine ⟨by rw [(ih _).1], ?_, ?_, ?_⟩
      · rw [(ih _).2.1, hcm]
      · rw [(ih _).2.2.1, hmt]
        push_cast
        ring
      · rw [(ih _).2.2.2, hmt]
        push_cast
        ring

/-- C1 (amended): when a completed message names an exchange absent from
the virtual host, handleContentBody emits basic.return with reply-code
NoConsumers and text "No route" unconditionally — for mandatory and
non-mandatory messages alike.  The mandatory flag gates the basic.return
only in the case where the exchange exists but matches no queue; there a
non-mandatory message is dropped with a confirm recorded instead. -/
theorem absent_exchange_always_returns (lookupEx : String → Option ExchangeObj)
    (st : ChannelState) (m : Message) (hdr : ContentHeader)
    (payload : List Nat) (hm : st.currentMessage = some m)
    (hh : m.header = some hdr)
    (hcomplete : hdr.bodySize ≤ (m.append payload).bodySize) :
    (lookupEx (m.append payload).exchange = none →
       handleContentBody lookupEx st payload =
         ({ st with currentMessage := some (m.append payload) },
          [Event.evBasicReturn NoConsumers "No route"
            (m.append payload).exchange (m.append payload).routingKey],
          none)) ∧
    (∀ ex, lookupEx (m.append payload).exchange = some ex →
       ex.matchedQueues (m.append payload) = [] →
       (m.mandatory = true →
          handleContentBody lookupEx st payload =
            ({ st with currentMessage := some (m.append payload) },
             [Event.evBasicReturn NoConsumers "No route"
               (m.append payload).exchange (m.append payload).routingKey],
             none)) ∧
       (m.mandatory = false →
          handleContentBody lookupEx st payload =
            (addConfirm { st with currentMessage := some (m.append payload) }
               (m.append payload).confirmMeta, [], none))) := by
  have hlt : ¬ (m.append payload).bodySize < hdr.bodySize :=
    Nat.not_lt.mpr hcomplete
  have hmand : (m.append payload).mandatory = m.mandatory := rfl
  constructor
  · intro hex
    simp [handleContentBody, hm, hh, hlt, hex]
  · intro ex hex hmatch
    constructor
    · intro hman
      simp [handleContentBody, hm, hh, hlt, hex, hmatch, hmand, hman]
    · intro hman
      simp [handleContentBody, hm, hh, hlt, hex, hmatch, hmand, hman]

/-- C1 counterexample: a completed non-mandatory publish to the absent
exchange "none" still emits basic.return(NoConsumers, "No route"),
refuting the claim that a non-mandatory message is silently dropped (no
basic.return) when the exchange is absent. -/
theorem absent_exchange_counterexample :
    cexMsgC1.mandatory = false ∧
    (handleContentBody (fun _ => none) stC1 [97, 98, 99]).2.1 =
      [Event.evBasicReturn NoConsumers "No route" "none" ""] :=
  ⟨rfl, rfl⟩

/-- C1 witness: the amended theorem evaluated at the concrete non-mandatory
publish to absent exchange "none" and at the concrete mandatory publish to
the existing no-match exchange ex1. -/
theorem absent_exchange_always_returns_witness :
    handleContentBody (fun _ => none) stC1 [97, 98, 99] =
      ({ stC1 with currentMessage := some (cexMsgC1.append [97, 98, 99]) },
       [Event.evBasicReturn NoConsumers "No route"
         (cexMsgC1.append [97, 98, 99]).exchange
         (cexMsgC1.append [97, 98, 99]).routingKey], none) ∧
    handleContentBody lookupExEmpty stMand [97, 98, 99] =
      ({ stMand with currentMessage := some (msgMand.append [97, 98, 99]) },
       [Event.evBasicReturn NoConsumers "No route"
         (msgMand.append [97, 98, 99]).exchange
         (msgMand.append [97, 98, 99]).routingKey], none) := by
  refine ⟨(absent_exchange_always_returns (fun _ => none) stC1 cexMsgC1
    ⟨3⟩ [97, 98, 99] rfl rfl (by decide)).1 rfl, ?_⟩
  exact ((absent_exchange_always_returns lookupExEmpty stMand msgMand
    ⟨3⟩ [97, 98, 99] rfl rfl (by decide)).2 exEmpty rfl rfl).1 rfl

/-- C3 (amended): once the accumulated body size reaches the declared
body-size, handleContentBody treats the message as complete and routes it —
one queue.Push per matched queue with Total/Ready metric increments — and
returns success, but the current-message slot is NOT cleared: it still
holds the (completed) message afterwards.  While the accumulated size is
below the declared size it returns success without routing. -/
theorem body_completion_routes_without_clearing
    (lookupEx : String → Option ExchangeObj) (st : ChannelState)
    (m : Message) (hdr : ContentHeader) (payload : List Nat)
    (hm : st.currentMessage = some m) (hh : m.header = some hdr) :
    ((m.append payload).bodySize < hdr.bodySize →
       handleContentBody lookupEx st payload =
         ({ st with currentMessage := some (m.append payload) }, [], none)) ∧
    (hdr.bodySize ≤ (m.append payload).bodySize →
       ∀ ex qs, lookupEx (m.append payload).exchange = some ex →
         ex.matchedQueues (m.append payload) = qs → qs ≠ [] →
         (handleContentBody lookupEx st payload).2.1 =
           qs.map Event.evPush ∧
         (handleContentBody lookupEx st payload).2.2 = none ∧
         (handleContentBody lookupEx st payload).1.currentMessage ≠ none ∧
         (handleContentBody lookupEx st payload).1.metrics.total =
           st.metrics.total + (qs.length : Int) ∧
         (handleContentBody lookupEx st payload).1.metrics.ready =
           st.metrics.ready + (qs.length : Int)) := by
  constructor
  · intro hlt
    simp [handleContentBody, hm, hh, hlt]
  · intro hge ex qs hex hqs hne
    have hlt : ¬ (m.append payload).bodySize < hdr.bodySize :=
      Nat.not_lt.mpr hge
    have hnem : qs.isEmpty = false := by
      cases qs with
      | nil => exact absurd rfl hne
      | cons a l => rfl
    have hr := routeLoop_spec
      { m.append payload with confirmMeta :=
          { (m.append payload).confirmMeta with expectedConfirms := qs.length } }
      ((m.append payload).confirmMeta.canConfirm && !(m.append payload).persistent)
      qs
      { st with
        currentMessage := some { m.append payload with confirmMeta :=
          { (m.append payload).confirmMeta with expectedConfirms := qs.length } },
        metrics := { st.metrics with publish := st.metrics.publish + 1 } }
    simp only [handleContentBody, hm, hh, hlt, hex, hqs, hnem, if_false,
      Bool.false_eq_true, ite_false, ite_true, if_neg, reduceIte]
    refine ⟨?_, ?_, ?_, ?_, ?_⟩
    · exact hr.1
    · trivial
    · rw [hr.2.1]
      simp
    · exact hr.2.2.1
    · exact hr.2.2.2

/-- C3 counterexample: a completed publish routed to queue q1 leaves the
current-message slot non-null afterwards, refuting the claim that
handleContentBody clears the slot on completion. -/
theorem body_completion_counterexample :
    (handleContentBody lookupExQ1 stC1 [97, 98, 99]).2.1 =
      [Event.evPush "q1"] ∧
    (handleContentBody lookupExQ1 stC1 [97, 98, 99]).1.currentMessage ≠
      none := by
  exact ⟨rfl, by decide⟩

theorem foldl_applyDec_shape (size : Nat) (refs : List QosRef)
    (st : ChannelState) (c : Consumer) :
    ∃ a b sn, refs.foldl (applyDec size) (st, c) =
      ({ st with qos := a, connQos := b }, { c with snapshot := sn }) := by
  induction refs generalizing st c with
  | nil => exact ⟨st.qos, st.connQos, c.snapshot, rfl⟩
  | cons r rest ih =>
      cases r with
      | chanQ =>
          obtain ⟨a, b, sn, h⟩ := ih { st with qos := st.qos.dec 1 size } c
          exact ⟨a, b, sn, h⟩
      | connQ =>
          obtain ⟨a, b, sn, h⟩ := ih { st with connQos := st.connQos.dec 1 size } c
          exact ⟨a, b, sn, h⟩
      | snapQ =>
          obtain ⟨a, b, sn, h⟩ := ih st { c with snapshot := c.snapshot.dec 1 size }
          exact ⟨a, b, sn, h⟩

theorem decQos_preserves (st : ChannelState) (u : UnackedMessage) :
    (decQosAndConsumerNext st u).1.ackStore = st.ackStore ∧
    (decQosAndConsumerNext st u).1.metrics = st.metrics ∧
    rejTags (decQosAndConsumerNext st u).2 = [] := by
  unfold decQosAndConsumerNext
  cases hl : lookupA st.consumers u.cTag with
  | none => simp [rejTags, List.filterMap]
  | some cmr =>
      obtain ⟨a, b, sn, h⟩ := foldl_applyDec_shape u.msg.bodySize cmr.qosRefs st cmr
      simp [h, rejTags, List.filterMap]

theorem decQos_ackStore (st : ChannelState) (u : UnackedMessage) :
    (decQosAndConsumerNext st u).1.ackStore = st.ackStore :=
  (decQos_preserves st u).1

theorem decQos_metrics (st : ChannelState) (u : UnackedMessage) :
    (decQosAndConsumerNext st u).1.metrics = st.metrics :=
  (decQos_preserves st u).2.1

theorem decQos_rejTags (st : ChannelState) (u : UnackedMessage) :
    rejTags (decQosAndConsumerNext st u).2 = [] :=
  (decQos_preserves st u).2.2

theorem rejTags_append (a b : List Event) :
    rejTags (a ++ b) = rejTags a ++ rejTags b :=
  List.filterMap_append a b _

theorem mem_keysA_of_mem {α β : Type} {l : List (α × β)} {p : α × β}
    (h : p ∈ l) : p.1 ∈ keysA l :=
  List.mem_map_of_mem Prod.fst h

theorem ackMsg_spec (qe : String → Bool) (st : ChannelState)
    (u : UnackedMessage) (t : Nat) :
    (ackMsg qe st u t).1.ackStore = removeA st.ackStore t ∧
    (qe u.queue = true → Event.evAckMsg u.queue t ∈ (ackMsg qe st u t).2) := by
  by_cases hq : qe u.queue = true
  · unfold ackMsg
    simp only [hq, ite_true, reduceIte]
    exact ⟨by rw [decQos_ackStore], fun _ =>
      List.mem_append_left _ (List.mem_singleton_self _)⟩
  · unfold ackMsg
    simp only [hq, ite_false, Bool.false_eq_true, reduceIte]
    exact ⟨by rw [decQos_ackStore], fun h => h.elim⟩

theorem keysA_cons {α β : Type} (k : α) (v : β) (l : List (α × β)) :
    keysA ((k, v) :: l) = k :: keysA l := rfl

theorem ackLoop_ackStore (qe : String → Bool) (d : Nat)
    (entries : List (Nat × UnackedMessage)) :
    ∀ st : ChannelState, (ackLoop qe d entries st).1.ackStore =
      st.ackStore.filter
        (fun p => ¬((d = 0 ∨ p.1 ≤ d) ∧ p.1 ∈ keysA entries)) := by
  induction entries with
  | nil =>
      intro st
      simp [ackLoop, keysA]
  | cons e rest ih =>
      obtain ⟨t, u⟩ := e
      intro st
      by_cases hsel : d = 0 ∨ t ≤ d
      · simp only [ackLoop, if_pos hsel]
        rw [ih, (ackMsg_spec qe st u t).1, removeA, List.filter_filter]
        apply List.filter_congr
        intro p hp
        rw [← Bool.decide_and, decide_eq_decide, keysA_cons, List.mem_cons]
        constructor
        · rintro ⟨hna, hne⟩ ⟨hs, hmem⟩
          rcases hmem with he | hm
          · exact hne he
          · exact hna ⟨hs, hm⟩
        · intro hn
          refine ⟨fun hc => hn ⟨hc.1, Or.inr hc.2⟩, fun he => ?_⟩
          refine hn ⟨?_, Or.inl he⟩
          rw [he]
          exact hsel
      · simp only [ackLoop, if_neg hsel]
        rw [ih]
        apply List.filter_congr
        intro p hp
        rw [decide_eq_decide, keysA_cons, List.mem_cons]
        constructor
        · intro hna hc
          rcases hc.2 with he | hm
          · refine hsel ?_
            rw [← he]
            exact hc.1
          · exact hna ⟨hc.1, hm⟩
        · intro hn hc
          exact hn ⟨hc.1, Or.inr hc.2⟩

theorem ackLoop_mem_event (qe : String → Bool) (d : Nat)
    (entries : List (Nat × UnackedMessage)) :
    ∀ (st : ChannelState) (t : Nat) (u : UnackedMessage),
      (t, u) ∈ entries → (d = 0 ∨ t ≤ d) → qe u.queue = true →
      Event.evAckMsg u.queue t ∈ (ackLoop qe d entries st).2 := by
  induction entries with
  | nil =>
      intro st t u h
      simp at h
  | cons e rest ih =>
      obtain ⟨t0, u0⟩ := e
      intro st t u hmem hsel hq
      rcases List.mem_cons.mp hmem with he | hm
      · rw [Prod.mk.injEq] at he
        obtain ⟨h1, h2⟩ := he
        subst h1
        subst h2
        simp only [ackLoop, if_pos hsel]
        exact List.mem_append_left _ ((ackMsg_spec qe st u t).2 hq)
      · by_cases hsel0 : d = 0 ∨ t0 ≤ d
        · simp only [ackLoop, if_pos hsel0]
          exact List.mem_append_right _ (ih _ t u hm hsel hq)
        · simp only [ackLoop, if_neg hsel0]
          exact ih st t u hm hsel hq

/-- C4: handleAck with multiple=false returns channel-level
PreconditionFailed "Delivery tag [N] not found" exactly when the tag is
absent from the unacked store — in particular for tag 0 when all stored
tags are positive, as issued tags are — and otherwise removes that single
entry and acks it; with multiple=true it acks every stored entry with tag ≤
the given tag (all entries when the tag is 0) and returns success even when
nothing matches. -/
theorem handleAck_spec (qe : String → Bool) (st : ChannelState) (d : Nat) :
    ((handleAck qe st d false).2.2 ≠ none ↔ lookupA st.ackStore d = none) ∧
    (lookupA st.ackStore d = none →
       handleAck qe st d false = (st, [], some (newChannelError
         PreconditionFailed
         ("Delivery tag [" ++ toString d ++ "] not found")))) ∧
    ((∀ p ∈ st.ackStore, 0 < p.1) →
       (handleAck qe st 0 false).2.2 = some (newChannelError
         PreconditionFailed ("Delivery tag [" ++ toString 0 ++ "] not found"))) ∧
    (∀ u, lookupA st.ackStore d = some u →
       (handleAck qe st d false).2.2 = none ∧
       (handleAck qe st d false).1.ackStore = removeA st.ackStore d ∧
       (qe u.queue = true →
          Event.evAckMsg u.queue d ∈ (handleAck qe st d false).2.1)) ∧
    ((handleAck qe st d true).2.2 = none) ∧
    ((handleAck qe st d true).1.ackStore =
       st.ackStore.filter (fun p => ¬(d = 0 ∨ p.1 ≤ d))) ∧
    (∀ t u, (t, u) ∈ st.ackStore → (d = 0 ∨ t ≤ d) → qe u.queue = true →
       Event.evAckMsg u.queue t ∈ (handleAck qe st d true).2.1) := by
  have hsingle : ∀ h : lookupA st.ackStore d = none,
      handleAck qe st d false = (st, [], some (newChannelError
        PreconditionFailed
        ("Delivery tag [" ++ toString d ++ "] not found"))) := by
    intro h
    simp [handleAck, h]
  refine ⟨?_, hsingle, ?_, ?_, ?_, ?_, ?_⟩
  · constructor
    · intro hne
      cases hl : lookupA st.ackStore d with
      | none => rfl
      | some u =>
          exfalso
          apply hne
          simp [handleAck, hl]
    · intro h
      rw [hsingle h]
      simp
  · intro hpos
    have h0 : lookupA st.ackStore 0 = none := by
      apply lookupA_eq_none.mpr
      intro hk
      obtain ⟨p, hp, hpk⟩ := List.mem_map.mp hk
      exact absurd (hpk ▸ hpos p hp) (by simp)
    simp [handleAck, h0]
  · intro u hu
    have hs := ackMsg_spec qe st u d
    refine ⟨by simp [handleAck, hu], ?_, fun hq => ?_⟩
    · simp only [handleAck, hu]
      exact hs.1
    · simp only [handleAck, hu]
      exact hs.2 hq
  · simp [handleAck]
  · simp only [handleAck, if_pos]
    rw [ackLoop_ackStore]
    apply List.filter_congr
    intro p hp
    rw [decide_eq_decide]
    have hk : p.1 ∈ keysA st.ackStore := mem_keysA_of_mem hp
    constructor
    · intro hna hs
      exact hna ⟨hs, hk⟩
    · intro hna hs
      exact hna hs.1
  · intro t u hmem hsel hq
    simp only [handleAck, if_pos]
    exact ackLoop_mem_event qe d st.ackStore st t u hmem hsel hq

/-- C4 witness: tag 5 is absent from the {1,2,3} store and fails with the
exact text, tag 0 (all stored tags positive) fails likewise, and
multiple-ack at tag 2 acks the stored tag-1 entry. -/
theorem handleAck_spec_witness :
    handleAck qeQ1 stAck 5 false = (stAck, [], some (newChannelError
      PreconditionFailed ("Delivery tag [" ++ toString 5 ++ "] not found"))) ∧
    (handleAck qeQ1 stAck 0 false).2.2 = some (newChannelError
      PreconditionFailed ("Delivery tag [" ++ toString 0 ++ "] not found")) ∧
    Event.evAckMsg "q1" 1 ∈ (handleAck qeQ1 stAck 2 true).2.1 := by
  refine ⟨(handleAck_spec qeQ1 stAck 5).2.1 rfl,
    (handleAck_spec qeQ1 stAck 0).2.2.1 (by decide), ?_⟩
  exact (handleAck_spec qeQ1 stAck 2).2.2.2.2.2.2 1 uW (by simp [stAck])
    (Or.inr (by decide)) rfl

theorem rejectMsg_spec (qe : String → Bool) (st : ChannelState)
    (u : UnackedMessage) (t : Nat) (rq : Bool) :
    (rejectMsg qe st u t rq).1.ackStore = removeA st.ackStore t ∧
    (qe u.queue = true →
       (rejectMsg qe st u t rq).1.metrics.unacked = st.metrics.unacked - 1 ∧
       (rejectMsg qe st u t rq).1.metrics.ready =
         st.metrics.ready + (if rq then 1 else 0) ∧
       rejTags (rejectMsg qe st u t rq).2 = [t] ∧
       (if rq then Event.evRequeue u.queue t else Event.evAckMsg u.queue t) ∈
         (rejectMsg qe st u t rq).2) := by
  by_cases hq : qe u.queue = true
  · cases rq
    · unfold rejectMsg
      simp only [hq, ite_true, ite_false, Bool.false_eq_true, reduceIte]
      refine ⟨by rw [decQos_ackStore], fun _ => ⟨?_, ?_, ?_, ?_⟩⟩
      · rw [decQos_metrics]
      · rw [decQos_metrics]
        simp
      · rw [rejTags_append, decQos_rejTags]
        simp [rejTags]
      · exact List.mem_append_left _ (List.mem_singleton_self _)
    · unfold rejectMsg
      simp only [hq, ite_true, reduceIte]
      refine ⟨by rw [decQos_ackStore], fun _ => ⟨?_, ?_, ?_, ?_⟩⟩
      · rw [decQos_metrics]
      · rw [decQos_metrics]
      · rw [rejTags_append, decQos_rejTags]
        simp [rejTags]
      · exact List.mem_append_left _ (List.mem_singleton_self _)
  · unfold rejectMsg
    simp only [hq, Bool.false_eq_true, reduceIte]
    exact ⟨by rw [decQos_ackStore], fun h => h.elim⟩

theorem rejectLoop_ackStore (qe : String → Bool) (d : Nat) (rq : Bool)
    (ts : List Nat) :
    ∀ st : ChannelState, (rejectLoop qe d rq ts st).1.ackStore =
      st.ackStore.filter (fun p => ¬((d = 0 ∨ p.1 ≤ d) ∧ p.1 ∈ ts)) := by
  induction ts with
  | nil =>
      intro st
      simp [rejectLoop]
  | cons t rest ih =>
      intro st
      by_cases hsel : d = 0 ∨ t ≤ d
      · cases hu : lookupA st.ackStore t with
        | some u =>
            simp only [rejectLoop, if_pos hsel, hu]
            rw [ih, (rejectMsg_spec qe st u t rq).1, removeA,
              List.filter_filter]
            apply List.filter_congr
            intro p hp
            rw [← Bool.decide_and, decide_eq_decide, List.mem_cons]
            constructor
            · rintro ⟨hna, hne⟩ ⟨hs, hmem⟩
              rcases hmem with he | hm
              · exact hne he
              · exact hna ⟨hs, hm⟩
            · intro hn
              refine ⟨fun hc => hn ⟨hc.1, Or.inr hc.2⟩, fun he => ?_⟩
              refine hn ⟨?_, Or.inl he⟩
              rw [he]
              exact hsel
        | none =>
            simp only [rejectLoop, if_pos hsel, hu]
            rw [ih]
            apply List.filter_congr
            intro p hp
            rw [decide_eq_decide, List.mem_cons]
            have hpt : p.1 ≠ t := fun he =>
              lookupA_eq_none.mp hu (he ▸ mem_keysA_of_mem hp)
            constructor
            · intro hna hc
              rcases hc.2 with he | hm
              · exact hpt he
              · exact hna ⟨hc.1, hm⟩
            · intro hn hc
              exact hn ⟨hc.1, Or.inr hc.2⟩
      · simp only [rejectLoop, if_neg hsel]
        rw [ih]
        apply List.filter_congr
        intro p hp
        rw [decide_eq_decide, List.mem_cons]
        constructor
        · intro hna hc
          rcases hc.2 with he | hm
          · refine hsel ?_
            rw [← he]
            exact hc.1
          · exact hna ⟨hc.1, hm⟩
        · intro hn hc
          exact hn ⟨hc.1, Or.inr hc.2⟩

theorem rejectLoop_main (qe : String → Bool) (d : Nat) (rq : Bool)
    (ts : List Nat) :
    ∀ st : ChannelState, ts.Nodup →
      (∀ t ∈ ts, t ∈ keysA st.ackStore) →
      (∀ p ∈ st.ackStore, qe p.2.queue = true) →
      rejTags (rejectLoop qe d rq ts st).2 =
        ts.filter (fun t => d = 0 ∨ t ≤ d) ∧
      (rejectLoop qe d rq ts st).1.metrics.unacked =
        st.metrics.unacked -
          ((ts.filter (fun t => d = 0 ∨ t ≤ d)).length : Int) ∧
      (rejectLoop qe d rq ts st).1.metrics.ready =
        st.metrics.ready + (if rq then
          ((ts.filter (fun t => d = 0 ∨ t ≤ d)).length : Int) else 0) := by
  induction ts with
  | nil =>
      intro st _ _ _
      cases rq <;> simp [rejectLoop, rejTags]
  | cons t rest ih =>
      intro st hnd hsub hq
      have hndr := (List.nodup_cons.mp hnd).2
      by_cases hsel : d = 0 ∨ t ≤ d
      · obtain ⟨u, hu⟩ :=
          lookupA_isSome_of_mem_keys (hsub t (List.mem_cons_self t rest))
        have humem : (t, u) ∈ st.ackStore := lookupA_mem hu
        have hqu : qe u.queue = true := hq (t, u) humem
        have hrs := rejectMsg_spec qe st u t rq
        have hq2 := hrs.2 hqu
        have hsub2 : ∀ t2 ∈ rest,
            t2 ∈ keysA (rejectMsg qe st u t rq).1.ackStore := by
          intro t2 h2
          rw [hrs.1, removeA]
          refine mem_keysA_filter_ne
            (hsub t2 (List.mem_cons_of_mem t h2)) ?_
          intro he
          exact (List.nodup_cons.mp hnd).1 (he ▸ h2)
        have hq3 : ∀ p ∈ (rejectMsg qe st u t rq).1.ackStore,
            qe p.2.queue = true := by
          intro p hp
          rw [hrs.1, removeA] at hp
          exact hq p (List.mem_of_mem_filter hp)
        obtain ⟨e1, e2, e3⟩ := ih (rejectMsg qe st u t rq).1 hndr hsub2 hq3
        simp only [rejectLoop, if_pos hsel, hu]
        refine ⟨?_, ?_, ?_⟩
        · rw [rejTags_append, hq2.2.2.1, e1, List.filter_cons_of_pos]
          · rfl
          · simpa using hsel
        · rw [e2, hq2.1, List.filter_cons_of_pos]
          · rw [List.length_cons]
            push_cast
            ring
          · simpa using hsel
        · rw [e3, hq2.2.1, List.filter_cons_of_pos]
          · rw [List.length_cons]
            cases rq
            · simp
            · simp
              ring
          · simpa using hsel
      · obtain ⟨e1, e2, e3⟩ := ih st hndr
          (fun t2 h2 => hsub t2 (List.mem_cons_of_mem t h2)) hq
        simp only [rejectLoop, if_neg hsel]
        refine ⟨?_, ?_, ?_⟩
        · rw [e1, List.filter_cons_of_neg]
          simpa using hsel
        · rw [e2, List.filter_cons_of_neg]
          simpa using hsel
        · rw [e3, List.filter_cons_of_neg]
          simpa using hsel

theorem rejectLoop_mem_event (qe : String → Bool) (d : Nat) (rq : Bool)
    (ts : List Nat) :
    ∀ (st : ChannelState) (t : Nat) (u : UnackedMessage),
      (keysA st.ackStore).Nodup → (t, u) ∈ st.ackStore → t ∈ ts →
      (d = 0 ∨ t ≤ d) → qe u.queue = true →
      (if rq then Event.evRequeue u.queue t else Event.evAckMsg u.queue t) ∈
        (rejectLoop qe d rq ts st).2 := by
  induction ts with
  | nil =>
      intro st t u _ _ h
      simp at h
  | cons t0 rest ih =>
      intro st t u hnd hmem hts hsel hq
      rcases eq_or_ne t0 t with he | hne
      · subst he
        have hu : lookupA st.ackStore t0 = some u :=
          lookupA_of_mem_nodup hnd hmem
        simp only [rejectLoop, if_pos hsel, hu]
        exact List.mem_append_left _
          (((rejectMsg_spec qe st u t0 rq).2 hq).2.2.2)
      · have hm : t ∈ rest := by
          rcases List.mem_cons.mp hts with h1 | h1
          · exact absurd h1.symm hne
          · exact h1
        by_cases hsel0 : d = 0 ∨ t0 ≤ d
        · cases hu0 : lookupA st.ackStore t0 with
          | some u0 =>
              simp only [rejectLoop, if_pos hsel0, hu0]
              refine List.mem_append_right _ (ih _ t u ?_ ?_ hm hsel hq)
              · rw [(rejectMsg_spec qe st u0 t0 rq).1, removeA]
                exact (keysA_filter_sublist st.ackStore _).nodup hnd
              · rw [(rejectMsg_spec qe st u0 t0 rq).1, removeA]
                refine List.mem_filter.mpr ⟨hmem, ?_⟩
                simpa using Ne.symm hne
          | none =>
              simp only [rejectLoop, if_pos hsel0, hu0]
              exact ih st t u hnd hmem hm hsel hq
        · simp only [rejectLoop, if_neg hsel0]
          exact ih st t u hnd hmem hm hsel hq

theorem pairwise_gt_of_sorted_nodup {l : List Nat}
    (h1 : List.Pairwise (fun a b => b ≤ a) l) (h2 : l.Nodup) :
    List.Pairwise (fun a b => b < a) l := by
  induction l with
  | nil => exact List.Pairwise.nil
  | cons a l ih =>
      rw [List.pairwise_cons] at h1 ⊢
      rw [List.nodup_cons] at h2
      refine ⟨fun b hb => lt_of_le_of_ne (h1.1 b hb) ?_, ih h1.2 h2.2⟩
      intro he
      exact h2.1 (he ▸ hb)

theorem sortedDesc_tags (l : List Nat) :
    List.Sorted (fun a b => b ≤ a)
      (List.insertionSort (fun a b => b ≤ a) l) := by
  haveI h1 : IsTotal Nat (fun a b => b ≤ a) := ⟨fun a b => le_total b a⟩
  haveI h2 : IsTrans Nat (fun a b => b ≤ a) :=
    ⟨fun a b c hab hbc => le_trans hbc hab⟩
  exact List.sorted_insertionSort _ l

/-- C5: handleReject with multiple=true processes the selected unacked
entries in strictly descending delivery-tag order (latest first); per
entry, with requeue it removes the entry, calls queue.Requeue and
increments Ready, otherwise it removes the entry and calls queue.AckMsg,
decrementing Unacked either way (in total by the number of selected
entries); with multiple=false a missing tag yields channel-level
PreconditionFailed "Delivery tag [N] not found". -/
theorem handleReject_spec (qe : String → Bool) (st : ChannelState) (d : Nat)
    (rq : Bool) (hnd : (keysA st.ackStore).Nodup)
    (hq : ∀ p ∈ st.ackStore, qe p.2.queue = true) :
    List.Chain' (fun a b => b < a)
      (rejTags (handleReject qe st d true rq).2.1) ∧
    (∀ t u, (t, u) ∈ st.ackStore → (d = 0 ∨ t ≤ d) →
       (if rq then Event.evRequeue u.queue t else Event.evAckMsg u.queue t) ∈
         (handleReject qe st d true rq).2.1) ∧
    ((handleReject qe st d true rq).1.ackStore =
       st.ackStore.filter (fun p => ¬(d = 0 ∨ p.1 ≤ d))) ∧
    ((handleReject qe st d true rq).1.metrics.unacked =
       st.metrics.unacked -
         (((keysA st.ackStore).filter (fun t => d = 0 ∨ t ≤ d)).length :
           Int)) ∧
    ((handleReject qe st d true rq).1.metrics.ready =
       st.metrics.ready + (if rq then
         (((keysA st.ackStore).filter (fun t => d = 0 ∨ t ≤ d)).length : Int)
         else 0)) ∧
    ((handleReject qe st d true rq).2.2 = none) ∧
    (lookupA st.ackStore d = none →
       handleReject qe st d false rq = (st, [], some (newChannelError
         PreconditionFailed
         ("Delivery tag [" ++ toString d ++ "] not found")))) := by
  have hperm : List.Perm
      (List.insertionSort (fun a b => b ≤ a) (keysA st.ackStore))
      (keysA st.ackStore) := List.perm_insertionSort _ _
  have hndts : (List.insertionSort (fun a b => b ≤ a)
      (keysA st.ackStore)).Nodup := hperm.nodup_iff.mpr hnd
  have hsub : ∀ t ∈ List.insertionSort (fun a b => b ≤ a)
      (keysA st.ackStore), t ∈ keysA st.ackStore :=
    fun t ht => hperm.mem_iff.mp ht
  obtain ⟨e1, e2, e3⟩ := rejectLoop_main qe d rq
    (List.insertionSort (fun a b => b ≤ a) (keysA st.ackStore)) st
    hndts hsub hq
  have hlen : ((List.insertionSort (fun a b => b ≤ a)
      (keysA st.ackStore)).filter (fun t => d = 0 ∨ t ≤ d)).length =
      ((keysA st.ackStore).filter (fun t => d = 0 ∨ t ≤ d)).length :=
    (hperm.filter _).length_eq
  refine ⟨?_, ?_, ?_, ?_, ?_, by simp [handleReject], fun h => by
    simp [handleReject, h]⟩
  · show List.Chain' (fun a b => b < a)
      (rejTags (rejectLoop qe d rq
        (List.insertionSort (fun a b => b ≤ a) (keysA st.ackStore)) st).2)
    rw [e1]
    refine List.Pairwise.chain' ?_
    refine pairwise_gt_of_sorted_nodup ?_ ?_
    · exact (sortedDesc_tags (keysA st.ackStore)).filter _
    · exact hndts.filter _
  · intro t u hmem hsel
    show _ ∈ (rejectLoop qe d rq
      (List.insertionSort (fun a b => b ≤ a) (keysA st.ackStore)) st).2
    refine rejectLoop_mem_event qe d rq _ st t u hnd hmem ?_ hsel
      (hq (t, u) hmem)
    exact hperm.mem_iff.mpr (mem_keysA_of_mem hmem)
  · show (rejectLoop qe d rq
      (List.insertionSort (fun a b => b ≤ a) (keysA st.ackStore)) st).1.ackStore
      = _
    rw [rejectLoop_ackStore]
    apply List.filter_congr
    intro p hp
    rw [decide_eq_decide]
    have hk : p.1 ∈ List.insertionSort (fun a b => b ≤ a)
        (keysA st.ackStore) := hperm.mem_iff.mpr (mem_keysA_of_mem hp)
    constructor
    · intro hna hs
      exact hna ⟨hs, hk⟩
    · intro hna hs
      exact hna hs.1
  · show (rejectLoop qe d rq
      (List.insertionSort (fun a b => b ≤ a) (keysA st.ackStore)) st).1.metrics.unacked
      = _
    rw [e2, hlen]
  · show (rejectLoop qe d rq
      (List.insertionSort (fun a b => b ≤ a) (keysA st.ackStore)) st).1.metrics.ready
      = _
    rw [e3, hlen]

/-- C5 witness: nacking all of {1,2,3} with requeue emits a Requeue for the
stored tag-3 entry and empties the store; a lone reject of absent tag 5
fails with the exact PreconditionFailed text. -/
theorem handleReject_spec_witness :
    Event.evRequeue "q1" 3 ∈ (handleReject qeQ1 stAck 0 true true).2.1 ∧
    (handleReject qeQ1 stAck 0 true true).1.ackStore = [] ∧
    handleReject qeQ1 stAck 5 false true = (stAck, [], some (newChannelError
      PreconditionFailed ("Delivery tag [" ++ toString 5 ++ "] not found"))) := by
  have h := handleReject_spec qeQ1 stAck 0 true (by decide) (by decide)
  have h5 := handleReject_spec qeQ1 stAck 5 true (by decide) (by decide)
  refine ⟨?_, ?_, h5.2.2.2.2.2.2 rfl⟩
  · have hm := h.2.1 3 uW (by simp [stAck]) (Or.inl rfl)
    simpa using hm
  · rw [h.2.2.1]
    decide

theorem decQos_consumers_nil (st : ChannelState) (u : UnackedMessage)
    (h : st.consumers = []) :
    (decQosAndConsumerNext st u).1.consumers = [] := by
  have hl : lookupA st.consumers u.cTag = none := by
    rw [h]
    rfl
  simp only [decQosAndConsumerNext, hl]
  exact h

theorem rejectMsg_consumers_nil (qe : String → Bool) (st : ChannelState)
    (u : UnackedMessage) (t : Nat) (rq : Bool) (h : st.consumers = []) :
    (rejectMsg qe st u t rq).1.consumers = [] := by
  unfold rejectMsg
  apply decQos_consumers_nil
  split
  · split
    · exact h
    · exact h
  · exact h

theorem rejectLoop_consumers_nil (qe : String → Bool) (d : Nat) (rq : Bool)
    (ts : List Nat) : ∀ st : ChannelState, st.consumers = [] →
    (rejectLoop qe d rq ts st).1.consumers = [] := by
  induction ts with
  | nil =>
      intro st h
      exact h
  | cons t rest ih =>
      intro st h
      by_cases hsel : d = 0 ∨ t ≤ d
      · cases hu : lookupA st.ackStore t with
        | some u =>
            simp only [rejectLoop, if_pos hsel, hu]
            exact ih _ (rejectMsg_consumers_nil qe st u t rq h)
        | none =>
            simp only [rejectLoop, if_pos hsel, hu]
            exact ih st h
      · simp only [rejectLoop, if_neg hsel]
        exact ih st h

/-- C9 (amended): for every channel with id > 0, after close() the consumer
registry is empty (every consumer stopped and removed), the unacked ledger
is empty with each previously unacked entry requeued via the reject-all
path (deliveryTag=0, multiple=true, requeue=true), and the channel state is
Closed.  For channel 0 the requeue-all step is skipped (see the
counterexample), though the registry is still cleared and the state closed. -/
theorem close_spec (qe : String → Bool) (st : ChannelState)
    (hid : 0 < st.id) (hnd : (keysA st.ackStore).Nodup)
    (hq : ∀ p ∈ st.ackStore, qe p.2.queue = true) :
    (close qe st).1.consumers = [] ∧
    (close qe st).1.ackStore = [] ∧
    (close qe st).1.status = channelClosed ∧
    (∀ p ∈ st.consumers, Event.evConsumerStop p.1 ∈ (close qe st).2) ∧
    (∀ t u, (t, u) ∈ st.ackStore →
       Event.evRequeue u.queue t ∈ (close qe st).2) := by
  have hperm := List.perm_insertionSort (fun a b => b ≤ a)
    (keysA st.ackStore)
  simp only [close, if_pos hid, handleReject, ite_true, reduceIte]
  refine ⟨?_, ?_, trivial, ?_, ?_⟩
  · exact rejectLoop_consumers_nil qe 0 true _ _ rfl
  · rw [rejectLoop_ackStore]
    rw [List.filter_eq_nil_iff]
    intro p hp
    simp only [decide_eq_true_eq, Decidable.not_not]
    exact ⟨Or.inl trivial, hperm.mem_iff.mpr (mem_keysA_of_mem hp)⟩
  · intro p hp
    exact List.mem_append_left _ (List.mem_map_of_mem _ hp)
  · intro t u hmem
    refine List.mem_append_right _ ?_
    have hm := rejectLoop_mem_event qe 0 true
      (List.insertionSort (fun a b => b ≤ a) (keysA st.ackStore))
      { st with consumers := [] } t u hnd hmem
      (hperm.mem_iff.mpr (mem_keysA_of_mem hmem)) (Or.inl rfl)
      (hq (t, u) hmem)
    simpa using hm

/-- C9 counterexample: a channel with id 0 holding one unacked entry keeps
that entry after close() — the requeue-all step only runs when id > 0 —
refuting the claim as stated for every channel. -/
theorem close_counterexample :
    (close qeQ1 stCh0).1.ackStore = [(7, uW)] ∧
    (close qeQ1 stCh0).1.ackStore ≠ [] :=
  ⟨rfl, by decide⟩

/-- C9 witness: closing a channel with consumer c1 and unacked tags {1,2}
stops the consumer, clears both maps, requeues tag 2 and ends Closed. -/
theorem close_spec_witness :
    (close qeQ1 stClose).1.consumers = [] ∧
    (close qeQ1 stClose).1.ackStore = [] ∧
    (close qeQ1 stClose).1.status = channelClosed ∧
    Event.evConsumerStop "c1" ∈ (close qeQ1 stClose).2 ∧
    Event.evRequeue "q1" 2 ∈ (close qeQ1 stClose).2 := by
  have h := close_spec qeQ1 stClose (by decide) (by decide) (by decide)
  exact ⟨h.1, h.2.1, h.2.2.1, h.2.2.2.1 ("c1", cmrW) (by simp [stClose]),
    h.2.2.2.2 2 uW (by simp [stClose])⟩

/-- C6: after an ack or reject of unacked message m, decQosAndConsumerNext
releases exactly (1, body-size of m) — on each accountant in the consumer's
QoS list when the consumer tag is still registered (its Consume() is then
also invoked), otherwise on both the channel-scope and connection-scope
accountants. -/
theorem qos_release_exact (st : ChannelState) (u : UnackedMessage) :
    (∀ cmr, lookupA st.consumers u.cTag = some cmr →
       (cmr.qosRefs = [QosRef.chanQ, QosRef.connQ] ∨
        cmr.qosRefs = [QosRef.chanQ, QosRef.snapQ]) →
       (∀ r ∈ cmr.qosRefs, 1 ≤ (resolveQos st cmr r).currentCount ∧
          u.msg.bodySize ≤ (resolveQos st cmr r).currentSize) →
       Event.evConsume u.cTag ∈ (decQosAndConsumerNext st u).2 ∧
       (∃ cmr2, lookupA (decQosAndConsumerNext st u).1.consumers u.cTag =
           some cmr2 ∧
         ∀ r ∈ cmr.qosRefs,
           (resolveQos (decQosAndConsumerNext st u).1 cmr2 r).currentCount + 1 =
             (resolveQos st cmr r).currentCount ∧
           (resolveQos (decQosAndConsumerNext st u).1 cmr2 r).currentSize +
               u.msg.bodySize =
             (resolveQos st cmr r).currentSize)) ∧
    (lookupA st.consumers u.cTag = none →
       (decQosAndConsumerNext st u).2 = [] ∧
       (1 ≤ st.qos.currentCount →
          (decQosAndConsumerNext st u).1.qos.currentCount + 1 =
            st.qos.currentCount) ∧
       (u.msg.bodySize ≤ st.qos.currentSize →
          (decQosAndConsumerNext st u).1.qos.currentSize + u.msg.bodySize =
            st.qos.currentSize) ∧
       (1 ≤ st.connQos.currentCount →
          (decQosAndConsumerNext st u).1.connQos.currentCount + 1 =
            st.connQos.currentCount) ∧
       (u.msg.bodySize ≤ st.connQos.currentSize →
          (decQosAndConsumerNext st u).1.connQos.currentSize + u.msg.bodySize =
            st.connQos.currentSize)) := by
  constructor
  · intro cmr hl hshape hbound
    rcases hshape with hsh | hsh
    · have hfold : cmr.qosRefs.foldl (applyDec u.msg.bodySize) (st, cmr) =
          ({ st with qos := st.qos.dec 1 u.msg.bodySize,
                     connQos := st.connQos.dec 1 u.msg.bodySize }, cmr) := by
        rw [hsh]
        rfl
      constructor
      · simp [decQosAndConsumerNext, hl, hfold]
      · refine ⟨cmr, ?_, ?_⟩
        · simp only [decQosAndConsumerNext, hl, hfold]
          exact lookupA_insertA_self st.consumers u.cTag cmr
        · intro r hr
          rw [hsh] at hr
          have hb1 := hbound QosRef.chanQ (by rw [hsh]; simp)
          have hb2 := hbound QosRef.connQ (by rw [hsh]; simp)
          rcases List.mem_cons.mp hr with h1 | h1
          · subst h1
            simp only [decQosAndConsumerNext, hl, hfold, resolveQos,
              AmqpQos.dec]
            exact ⟨Nat.sub_add_cancel hb1.1, Nat.sub_add_cancel hb1.2⟩
          · have h2 : r = QosRef.connQ := by simpa using h1
            subst h2
            simp only [decQosAndConsumerNext, hl, hfold, resolveQos,
              AmqpQos.dec]
            exact ⟨Nat.sub_add_cancel hb2.1, Nat.sub_add_cancel hb2.2⟩
    · have hfold : cmr.qosRefs.foldl (applyDec u.msg.bodySize) (st, cmr) =
          ({ st with qos := st.qos.dec 1 u.msg.bodySize },
           { cmr with snapshot := cmr.snapshot.dec 1 u.msg.bodySize }) := by
        conv_lhs => rw [hsh]
        rfl
      constructor
      · simp [decQosAndConsumerNext, hl, hfold]
      · refine ⟨{ cmr with snapshot := cmr.snapshot.dec 1 u.msg.bodySize },
          ?_, ?_⟩
        · simp only [decQosAndConsumerNext, hl, hfold]
          exact lookupA_insertA_self st.consumers u.cTag _
        · intro r hr
          rw [hsh] at hr
          have hb1 := hbound QosRef.chanQ (by rw [hsh]; simp)
          have hb2 := hbound QosRef.snapQ (by rw [hsh]; simp)
          rcases List.mem_cons.mp hr with h1 | h1
          · subst h1
            simp only [decQosAndConsumerNext, hl, hfold, resolveQos,
              AmqpQos.dec]
            exact ⟨Nat.sub_add_cancel hb1.1, Nat.sub_add_cancel hb1.2⟩
          · have h2 : r = QosRef.snapQ := by simpa using h1
            subst h2
            simp only [decQosAndConsumerNext, hl, hfold, resolveQos,
              AmqpQos.dec]
            exact ⟨Nat.sub_add_cancel hb2.1, Nat.sub_add_cancel hb2.2⟩
  · intro hl
    refine ⟨by simp [decQosAndConsumerNext, hl], ?_, ?_, ?_, ?_⟩ <;>
      intro hb <;>
      simp only [decQosAndConsumerNext, hl, AmqpQos.dec] <;>
      exact Nat.sub_add_cancel hb

/-- C6 witness: releasing uW against registered consumer c1 fires Consume
and the release arithmetic holds on the busy accountants; releasing the
orphaned message falls back to channel and connection scope. -/
theorem qos_release_exact_witness :
    Event.evConsume "c1" ∈ (decQosAndConsumerNext stQos uW).2 ∧
    (decQosAndConsumerNext stQos uOrphan).1.qos.currentCount + 1 =
      stQos.qos.currentCount ∧
    (decQosAndConsumerNext stQos uOrphan).1.connQos.currentSize + 4 =
      stQos.connQos.currentSize := by
  have h1 := (qos_release_exact stQos uW).1 cmrW rfl (Or.inl rfl)
    (by decide)
  have h2 := (qos_release_exact stQos uOrphan).2 rfl
  exact ⟨h1.1, h2.2.1 (by decide), h2.2.2.2.2 (by decide)⟩

/-- C3 witness: the amended theorem evaluated on the concrete q1-routing
state, below and at the declared size. -/
theorem body_completion_routes_witness :
    handleContentBody lookupExQ1 stC1 [97] =
      ({ stC1 with currentMessage := some (cexMsgC1.append [97]) }, [],
       none) ∧
    (handleContentBody lookupExQ1 stC1 [97, 98, 99]).2.1 =
      ["q1"].map Event.evPush := by
  refine ⟨(body_completion_routes_without_clearing lookupExQ1 stC1 cexMsgC1
    ⟨3⟩ [97] rfl rfl).1 (by decide), ?_⟩
  exact (((body_completion_routes_without_clearing lookupExQ1 stC1 cexMsgC1
    ⟨3⟩ [97, 98, 99] rfl rfl).2 (by decide) exQ1 ["q1"] rfl rfl
    (by decide))).1

end GarageMQ

namespace VHost

/-- C10: AppendQueue stores the queue under its own name — a subsequent
GetQueue on that name returns it — and appends a binding on the default
(empty-named) exchange whose routing key is the queue name, making every
appended queue reachable through the default exchange. -/
theorem appendQueue_registers_and_binds (vh : VirtualHost) (qu : QueueRec)
    (ex : VExchange) (hex : getDefaultExchange vh = some ex) :
    getQueue (appendQueue vh qu) qu.name = some qu ∧
    getDefaultExchange (appendQueue vh qu) = some (exWithBind ex qu.name) ∧
    bindOf qu.name ∈ (exWithBind ex qu.name).bindings ∧
    (bindOf qu.name).routingKey = qu.name := by
  have hex1 : getDefaultExchange
      { vh with queues := GarageMQ.insertA vh.queues qu.name qu } = some ex := hex
  have happ : appendQueue vh qu =
      { queues := GarageMQ.insertA vh.queues qu.name qu,
        exchanges := GarageMQ.insertA vh.exchanges EX_DEFAULT_NAME
          (exWithBind ex qu.name) } := by
    simp only [appendQueue, hex1, exWithBind, bindOf]
  refine ⟨?_, ?_, ?_, rfl⟩
  · rw [happ]
    exact GarageMQ.lookupA_insertA_self vh.queues qu.name qu
  · rw [happ]
    exact GarageMQ.lookupA_insertA_self vh.exchanges EX_DEFAULT_NAME _
  · simp [exWithBind]

/-- C10 witness: a concrete virtual host holding only the default exchange
receives queue q1; GetQueue finds it and the default exchange carries the
binding with routing key q1. -/
theorem appendQueue_registers_and_binds_witness :
    getQueue (appendQueue vh0 quQ1) "q1" = some quQ1 ∧
    getDefaultExchange (appendQueue vh0 quQ1) =
      some (exWithBind (VExchange.mk "" []) "q1") := by
  have h := appendQueue_registers_and_binds vh0 quQ1 (VExchange.mk "" []) rfl
  exact ⟨h.1, h.2.1⟩

end VHost
